import Mathlib

/-!
Verification of the productivity-dashboard core (Dashboard-de-Produtividade).

Shallow embedding of the computational core of the repository:
  * `src/config.py`          : goal constants and required-column table
  * `src/data_processing.py` : column validation, weekly aggregation, goal calculation
  * `src/analysis.py`        : trend analysis and decline alerts
  * `src/visualization.py`   : streak computation and performance-pattern tabs

Modelling conventions:
  * Calendar dates are integers counting days from a fixed Monday epoch, so
    `d % 7` is the ISO weekday index (Monday = 0), matching
    `pandas.Series.dt.weekday`, and `d + 7` is "one week later".
  * Productivity scores are rationals (the Python floats carry exact decimal
    data here; no claim involves rounding).
  * A cell of the closing-date column is `Option Int`: `some d` is the value
    produced by `pd.to_datetime(..., errors='coerce')`, `none` is `NaT`
    (a malformed / unparseable raw value).
  * Fallible Python code (raised exceptions) is embedded in `Except String`.
-/

namespace Dashboard

/-! ### src/config.py -/

/-- `MetaConfig.DIARIA` (config.py line 9). -/
def MetaConfig.DIARIA : Int := 8

/-- `MetaConfig.SEMANAL` (config.py line 10). -/
def MetaConfig.SEMANAL : Int := 40

/-- `COLUNAS_ORIGINAIS` (config.py lines 27-32): canonical field name paired
with the source-spreadsheet column name. -/
def COLUNAS_ORIGINAIS : List (String × String) :=
  [("data_fechamento", "Date (Data Fechamento Operações)"),
   ("produtividade", "QTD. PROXXIMA | Produtivas - Fechamento Geral"),
   ("protocolos", "ID Protocolo | Proxxima"),
   ("tecnico", "Nome Colaborador")]

/-- `COLUNAS_OBRIGATORIAS = list(COLUNAS_ORIGINAIS.values())` (config.py line 33). -/
def COLUNAS_OBRIGATORIAS : List String := COLUNAS_ORIGINAIS.map Prod.snd

/-! ### src/data_processing.py -/

/-- `DataProcessor.validar_colunas` (data_processing.py lines 48-64):
`faltantes = [col for col in COLUNAS_OBRIGATORIAS if col not in df.columns]`;
raises `ValueError` naming `faltantes` when nonempty, otherwise returns `True`.
The raised error is embedded as `Except.error faltantes`. -/
def validar_colunas (columns : List String) : Except (List String) Bool :=
  let faltantes := COLUNAS_OBRIGATORIAS.filter (fun col => !columns.contains col)
  if faltantes.isEmpty then .ok true else .error faltantes

/-- `DataProcessor.calcular_meta` (data_processing.py lines 120-134):
`dias = pd.date_range(semana, semana + 6 days)` (7 inclusive days),
`qtd_feriados = sum(d in feriados for d in dias)`,
returns `MetaConfig.SEMANAL - qtd_feriados * MetaConfig.DIARIA`. -/
def calcular_meta (semana : Int) (feriados : List Int) : Int :=
  let dias := (List.range 7).map (fun (i : Nat) => semana + (i : Int))
  let qtd_feriados := (dias.filter (fun d => feriados.contains d)).length
  MetaConfig.SEMANAL - (qtd_feriados : Int) * MetaConfig.DIARIA

/-- One row of the principal table after the renaming / column selection of
data_processing.py lines 96-99 (the four canonical columns of
`COLUNAS_ORIGINAIS`), with `data_fechamento` already coerced by
`pd.to_datetime(..., errors='coerce')` (line 101): `none` is `NaT`. -/
structure Row where
  data_fechamento : Option Int
  produtividade : ℚ
  protocolos : Int
  tecnico : String
deriving DecidableEq

/-- One row of the `resumo` table built at data_processing.py lines 108-114. -/
structure ResumoRow where
  tecnico : String
  semana : Int
  produtividade : ℚ
  protocolos : Nat
  meta_semana : Option Int
  meta_batida : Bool
deriving DecidableEq

/-- `pandas.Series.unique`: the distinct values in order of first appearance
(accumulator carries the values already seen). -/
def unicosAux [BEq α] : List α → List α → List α
  | [], _ => []
  | x :: xs, vistos =>
      if vistos.contains x then unicosAux xs vistos else x :: unicosAux xs (x :: vistos)

/-- `pandas.Series.unique` over a list of cell values. -/
def unicos [BEq α] (l : List α) : List α := unicosAux l []

/-- Line 102: `semana = data_fechamento - weekday(data_fechamento)` where
`weekday` is the ISO weekday index, i.e. `d % 7` under the Monday epoch. -/
def semanaDe (d : Int) : Int := d - d % 7

/-- The rows surviving `pd.to_datetime(..., errors='coerce')` followed by the
NaT-dropping `groupby` (lines 101-111): each valid row contributes its
technician, its computed `semana`, and its productivity. Rows whose
`data_fechamento` is `NaT` appear in no group (`groupby` drops null keys). -/
def validEntries (rows : List Row) : List (String × Int × ℚ) :=
  rows.filterMap (fun r => r.data_fechamento.map (fun d => (r.tecnico, semanaDe d, r.produtividade)))

/-- Lines 105-114 applied to the valid entries:
`metas = calcular_metas_semanais(df, feriados)` (a dictionary over
`df['semana'].dropna().unique()`, lines 136-154), then
`resumo = df.groupby(['tecnico','semana']).agg(produtividade=sum, protocolos=count)`,
`resumo['meta_semana'] = resumo['semana'].map(metas)`,
`resumo['meta_batida'] = resumo['produtividade'] >= resumo['meta_semana']`.
Group keys are listed in order of first appearance; pandas emits them sorted
by key, an ordering difference no property below depends on (callers sort
explicitly). A missing dictionary key would yield `NaN`, and a comparison
against `NaN` is false, hence the `Option.elim false`; the lookup in fact
always succeeds because every group key week is a valid-entry week. -/
def resumoDe (entries : List (String × Int × ℚ)) (feriados : List Int) : List ResumoRow :=
  let semanas := unicos (entries.map (fun e => e.2.1))
  let metas := semanas.map (fun s => (s, calcular_meta s feriados))
  let chaves := unicos (entries.map (fun e => (e.1, e.2.1)))
  chaves.map (fun k =>
    let grupo := entries.filter (fun e => e.1 == k.1 && e.2.1 == k.2)
    let prod := (grupo.map (fun e => e.2.2)).sum
    let meta := metas.lookup k.2
    { tecnico := k.1, semana := k.2, produtividade := prod, protocolos := grupo.length,
      meta_semana := meta,
      meta_batida := meta.elim false (fun m => decide ((m : ℚ) ≤ prod)) })

/-- `DataProcessor.preprocessar_dados` body (lines 93-116) on a loaded table. -/
def preprocessar_core (table : List Row) (feriados : List Int) : List ResumoRow :=
  resumoDe (validEntries table) feriados

/-- `DataProcessor` state: `self.df_principal` (data_processing.py line 24),
`none` until `carregar_dados_principal` stores a table. -/
structure DataProcessor where
  df_principal : Option (List Row)
deriving DecidableEq

/-- `DataProcessor.preprocessar_dados` (lines 77-118) as a state transformer:
raises when `df_principal is None` (line 90); otherwise works on
`df = self.df_principal.copy()` (line 94) — every subsequent mutation hits the
local copy only, so the method returns the summary together with the unchanged
processor state. -/
def DataProcessor.preprocessar_dados (p : DataProcessor) (feriados : List Int) :
    Except String (List ResumoRow × DataProcessor) :=
  match p.df_principal with
  | none => .error "Dados principais não carregados"
  | some table => .ok (preprocessar_core table feriados, p)

/-- Number of rows of the input table whose closing date is unparseable
(`NaT` after coercion); this is the drop count the spec wants surfaced. -/
def linhasDescartadas (rows : List Row) : Nat :=
  (rows.filter (fun r => r.data_fechamento.isNone)).length

/-! ### src/analysis.py and src/visualization.py

`PerformanceAnalyzer.__init__` (analysis.py lines 28-33) merely relabels the
columns of the `resumo` table (`tecnico` → `Nome Colaborador`, `semana` →
`Semana`, ...), so the analyzer and visualizer functions below operate
directly on `ResumoRow`. -/

/-- Stable insertion of a row into a list already sorted by `semana`. -/
def insereSemana (r : ResumoRow) : List ResumoRow → List ResumoRow
  | [] => [r]
  | x :: xs => if r.semana ≤ x.semana then r :: x :: xs else x :: insereSemana r xs

/-- `DataFrame.sort_values('Semana')`, ascending: a sort by the `semana`
field (stable; pandas leaves ties in unspecified order, and group keys are
unique per technician so ties do not arise in practice). -/
def ordenarPorSemana : List ResumoRow → List ResumoRow
  | [] => []
  | r :: rs => insereSemana r (ordenarPorSemana rs)

/-- `sum((0:ℚ) + 1 + ... + (n-1))`, the `x`-coordinate sum of
`x = np.arange(n)`. -/
def somaIdx (n : Nat) : ℚ := ((List.range n).map (fun (i : Nat) => (i : ℚ))).sum

/-- Sum of squared `x`-coordinates of `np.arange(n)`. -/
def somaIdxSq (n : Nat) : ℚ :=
  ((List.range n).map (fun (i : Nat) => (i : ℚ) * (i : ℚ))).sum

/-- Sum of `x*y` over the points `(i, ys[i])`. -/
def somaXY (ys : List ℚ) : ℚ :=
  (((List.range ys.length).zip ys).map (fun p => (p.1 : ℚ) * p.2)).sum

/-- `np.polyfit(np.arange(len(ys)), ys, 1)` (analysis.py line 50): the
ordinary-least-squares straight line through the points `(i, ys[i])`,
`i = 0..n-1`, returned as `(slope, intercept)` — numpy returns the
highest-degree coefficient first. Written with the closed-form normal-equation
solution; the determinant is nonzero whenever `n ≥ 2`. -/
def polyfit1 (ys : List ℚ) : ℚ × ℚ :=
  let n : ℚ := ys.length
  let sx := somaIdx ys.length
  let sxx := somaIdxSq ys.length
  let sy := ys.sum
  let sxy := somaXY ys
  let den := n * sxx - sx * sx
  ((n * sxy - sx * sy) / den, (sy * sxx - sx * sxy) / den)

/-- The idiom `self.df[self.df['Nome Colaborador'] == tecnico].sort_values('Semana')`
repeated at analysis.py lines 43, 166 and visualization.py lines 315, 373: the
technician's summary rows sorted ascending by week. -/
def dadosDe (df : List ResumoRow) (t : String) : List ResumoRow :=
  ordenarPorSemana (df.filter (fun r => r.tecnico == t))

/-- The `'ok'` dictionary built at analysis.py lines 71-85 (the fields the
verified properties mention; `coef[1]` enters the returned dictionary through
`projecao` and `tendencia_line`). `projecao_date` is
`dados['Semana'].iloc[-1] + timedelta(weeks=1)` when `dados` is nonempty
(lines 53-59), else `None`. -/
structure TrendOk where
  tecnico : String
  tendencia : String
  coeficiente : ℚ
  intercepto : ℚ
  projecao : ℚ
  projecao_date : Option Int
deriving DecidableEq

/-- Return value of `identificar_tendencia`: either the
`status='insuficiente'` dictionary (which carries only a message — no slope,
projection or direction fields) or the `status='ok'` dictionary. -/
inductive TrendResult where
  | insuficiente
  | ok (r : TrendOk)
deriving DecidableEq

/-- `PerformanceAnalyzer.identificar_tendencia` (analysis.py lines 35-85):
select the technician's rows, sort by `Semana`; with fewer than
`periodo_semanas` rows return the insufficient-data dictionary (lines 44-45);
otherwise fit `np.polyfit` over the last `periodo_semanas` rows indexed
`0..W-1` (lines 47-50), classify `'alta'` when `coef[0] > 0.5`, `'baixa'`
when `coef[0] < -0.5`, else `'estavel'` (line 74), project
`coef[0] * periodo_semanas + coef[1]` (line 76) and report
`projecao_date = ultima_semana + 1 week` (lines 53-59). -/
def identificar_tendencia (df : List ResumoRow) (tecnico : String)
    (periodo_semanas : Nat) : TrendResult :=
  let dados := dadosDe df tecnico
  if dados.length < periodo_semanas then .insuficiente
  else
    let recente := dados.drop (dados.length - periodo_semanas)
    let ys := recente.map (fun r => r.produtividade)
    let coef := polyfit1 ys
    .ok { tecnico := tecnico,
          tendencia :=
            if (1 : ℚ)/2 < coef.1 then "alta"
            else if coef.1 < -(1/2 : ℚ) then "baixa" else "estavel",
          coeficiente := coef.1,
          intercepto := coef.2,
          projecao := coef.1 * (periodo_semanas : ℚ) + coef.2,
          projecao_date := dados.getLast?.map (fun r => r.semana + 7) }

/-- One alert dictionary produced by `gerar_alertas`. -/
structure Alert where
  tipo : String
  tecnico : String
  severidade : String
  message : String
deriving DecidableEq

/-- The per-technician body of the `gerar_alertas` loop (analysis.py lines
165-177): sort the technician's rows by `Semana`; if at least 3 exist, take
`ultimos = dados.tail(3)` and emit the high-severity
`queda_performance` alert exactly when `Meta Batida` is true at `ultimos[0]`
and false at `ultimos[1]` and `ultimos[2]`. -/
def alertaQuedaDe (df : List ResumoRow) (t : String) : Option Alert :=
  let dados := dadosDe df t
  if 3 ≤ dados.length then
    match dados.drop (dados.length - 3) with
    | [a, b, c] =>
        if a.meta_batida && !b.meta_batida && !c.meta_batida then
          some { tipo := "queda_performance", tecnico := t, severidade := "alta",
                 message := t ++ " teve queda nas últimas 3 semanas" }
        else none
    | _ => none
  else none

/-- `PerformanceAnalyzer.gerar_alertas` (analysis.py lines 155-191): the
decline scan runs over `self.df['Nome Colaborador'].unique()`. The
neighbourhood branch (lines 180-189) is guarded by
`'Bairro' in self.df.columns`, which is false for the summary table modelled
here (the `resumo` has no `Bairro` column), so it contributes no alert. -/
def gerar_alertas (df : List ResumoRow) : List Alert :=
  (unicos (df.map (fun r => r.tecnico))).filterMap (alertaQuedaDe df)

/-- The streak dictionary of `DashboardVisualizer._calcular_streaks`
(visualization.py lines 218-223). -/
structure StreakInfo where
  maior_streak_positivo : Nat
  maior_streak_negativo : Nat
  current_pos : Nat
  current_neg : Nat
deriving DecidableEq

/-- One iteration of the loop at visualization.py lines 225-239: a met goal
extends the positive counter, resets the negative one and refreshes the
positive maximum; a missed goal does the symmetric update. -/
def streakPasso (s : StreakInfo) (meta : Bool) : StreakInfo :=
  if meta then
    { s with current_pos := s.current_pos + 1,
             current_neg := 0,
             maior_streak_positivo := max s.maior_streak_positivo (s.current_pos + 1) }
  else
    { s with current_neg := s.current_neg + 1,
             current_pos := 0,
             maior_streak_negativo := max s.maior_streak_negativo (s.current_neg + 1) }

/-- `DashboardVisualizer._calcular_streaks` (visualization.py lines 216-241):
walk `dados['meta_batida']` (here: the ordered goal-met sequence) with the
running counters, starting from the all-zero dictionary. -/
def calcular_streaks (metas : List Bool) : StreakInfo :=
  metas.foldl streakPasso { maior_streak_positivo := 0, maior_streak_negativo := 0,
                            current_pos := 0, current_neg := 0 }

/-- `Series.iloc[i]` for an integer position `i`: a nonnegative `i` indexes
from the front, a negative `i` indexes from the back; an out-of-bounds
position yields `none` (pandas raises `IndexError`). -/
def ilocIdx (l : List ResumoRow) (i : Int) : Option ResumoRow :=
  if 0 ≤ i then l.get? i.toNat
  else if (-i).toNat ≤ l.length then l.get? (l.length - (-i).toNat) else none

/-- One entry of the growth tab table (visualization.py lines 375-379). -/
structure CrescimentoEntry where
  tecnico : String
  semanas_crescimento : Nat
  ganho_produtividade : ℚ
deriving DecidableEq

/-- The per-technician body of the growth tab loop
(`mostrar_padroes_desempenho`, visualization.py lines 372-379): sort the
technician's summary rows by week; when `len(dados) >= 3` and the last 3
`meta_batida` values are all true, read
`dados['produtividade'].iloc[-1] - dados['produtividade'].iloc[-4]` —
`iloc[-4]` raises `IndexError` whenever the series has fewer than 4 rows. -/
def crescimentoDe (resumo : List ResumoRow) (t : String) :
    Except String (Option CrescimentoEntry) :=
  let dados := dadosDe resumo t
  if 3 ≤ dados.length ∧ (dados.drop (dados.length - 3)).all (fun r => r.meta_batida) then
    match ilocIdx dados (-1), ilocIdx dados (-4) with
    | some a, some b => .ok (some { tecnico := t, semanas_crescimento := 3,
                                    ganho_produtividade := a.produtividade - b.produtividade })
    | _, _ => .error "IndexError: single positional indexer is out-of-bounds"
  else .ok none

/-- The growth tab loop over `resumo['tecnico'].unique()` (visualization.py
lines 371-379), collecting the `crescimento` entries in iteration order; the
first raised `IndexError` aborts the whole rendering call. -/
def coletaCrescimento (resumo : List ResumoRow) :
    List String → Except String (List CrescimentoEntry)
  | [] => .ok []
  | t :: ts => do
      let e ← crescimentoDe resumo t
      let resto ← coletaCrescimento resumo ts
      match e with
      | some x => .ok (x :: resto)
      | none => .ok resto

/-- The growth tab of `DashboardVisualizer.mostrar_padroes_desempenho`
(visualization.py lines 370-390). -/
def mostrar_padroes_crescimento (resumo : List ResumoRow) :
    Except String (List CrescimentoEntry) :=
  coletaCrescimento resumo (unicos (resumo.map (fun r => r.tecnico)))

/-! ### Specification-side definitions and concrete example inputs -/

/-- Number of holiday dates falling in the inclusive 7-day window
`[semana, semana+6]` — holiday duplicates in the configured list count once,
the window membership is what matters. -/
def feriadosNaJanela (semana : Int) (feriados : List Int) : Nat :=
  (feriados.toFinset.filter (fun d => semana ≤ d ∧ d ≤ semana + 6)).card

/-- The normal equations of the ordinary-least-squares line `y = a*x + b`
through the points `(i, ys[i])`, `i = 0..n-1`: any pair `(a, b)` satisfying
them minimises the sum of squared residuals (`lsqFit_minimiza`), and with
`n ≥ 2` the solution is unique (`lsqFit_unique`). -/
def lsqFit (ys : List ℚ) (a b : ℚ) : Prop :=
  a * somaIdxSq ys.length + b * somaIdx ys.length = somaXY ys ∧
  a * somaIdx ys.length + b * (ys.length : ℚ) = ys.sum

/-- The sum of squared residuals of the line `y = a*x + b` over the points
`(i, ys[i])`, `i = 0..n-1`. -/
def erroQuadratico (ys : List ℚ) (a b : ℚ) : ℚ :=
  (((List.range ys.length).zip ys).map
    (fun p => (p.2 - (a * (p.1 : ℚ) + b)) ^ 2)).sum

/-- The productivity values of the last `W` rows of a technician's ascending
weekly series: the `y`-input of the trend fit. -/
def ultimosProdutos (df : List ResumoRow) (t : String) (W : Nat) : List ℚ :=
  ((dadosDe df t).drop ((dadosDe df t).length - W)).map (fun r => r.produtividade)

/-- A technician with exactly 3 weekly summary rows, goal met in all of them. -/
def exemploTresSemanas : List ResumoRow :=
  [{ tecnico := "a", semana := 0, produtividade := 50, protocolos := 1,
     meta_semana := some 40, meta_batida := true },
   { tecnico := "a", semana := 7, produtividade := 50, protocolos := 1,
     meta_semana := some 40, meta_batida := true },
   { tecnico := "a", semana := 14, produtividade := 50, protocolos := 1,
     meta_semana := some 40, meta_batida := true }]

/-- An input row with a parseable closing date (day 9 = Wednesday of week 7). -/
def linhaBoa : Row :=
  { data_fechamento := some 9, produtividade := 5, protocolos := 1, tecnico := "a" }

/-- An input row whose closing date failed to parse (`NaT`). -/
def linhaMa : Row :=
  { data_fechamento := none, produtividade := 7, protocolos := 2, tecnico := "a" }

/-- A technician whose last three weeks read goal met, missed, missed. -/
def exemploQueda : List ResumoRow :=
  [{ tecnico := "a", semana := 0, produtividade := 50, protocolos := 1,
     meta_semana := some 40, meta_batida := true },
   { tecnico := "a", semana := 7, produtividade := 10, protocolos := 1,
     meta_semana := some 40, meta_batida := false },
   { tecnico := "a", semana := 14, produtividade := 10, protocolos := 1,
     meta_semana := some 40, meta_batida := false }]

/-- Four weekly rows of one technician with productivity 10, 20, 30, 40. -/
def exemploTendencia : List ResumoRow :=
  [{ tecnico := "a", semana := 0, produtividade := 10, protocolos := 1,
     meta_semana := some 40, meta_batida := false },
   { tecnico := "a", semana := 7, produtividade := 20, protocolos := 1,
     meta_semana := some 40, meta_batida := false },
   { tecnico := "a", semana := 14, produtividade := 30, protocolos := 1,
     meta_semana := some 40, meta_batida := false },
   { tecnico := "a", semana := 21, produtividade := 40, protocolos := 1,
     meta_semana := some 40, meta_batida := true }]

/-! ### Helper lemmas -/

lemma mem_unicosAux [BEq α] [LawfulBEq α] (x : α) :
    ∀ (l vistos : List α), x ∈ unicosAux l vistos ↔ x ∈ l ∧ x ∉ vistos
  | [], vistos => by simp [unicosAux]
  | a :: l, vistos => by
    simp only [unicosAux]
    by_cases h : vistos.contains a
    · rw [if_pos h, mem_unicosAux x l vistos]
      have ha : a ∈ vistos := by simpa using h
      simp only [List.mem_cons]
      constructor
      · rintro ⟨hx, hv⟩
        exact ⟨Or.inr hx, hv⟩
      · rintro ⟨hx | hx, hv⟩
        · exact absurd (hx ▸ ha) hv
        · exact ⟨hx, hv⟩
    · rw [if_neg h]
      have ha : a ∉ vistos := by simpa using h
      simp only [List.mem_cons, mem_unicosAux x l (a :: vistos), List.mem_cons]
      constructor
      · rintro (hx | ⟨hx, hv⟩)
        · exact ⟨Or.inl hx, hx ▸ ha⟩
        · exact ⟨Or.inr hx, fun hc => hv (Or.inr hc)⟩
      · rintro ⟨hx | hx, hv⟩
        · exact Or.inl hx
        · by_cases hxa : x = a
          · exact Or.inl hxa
          · exact Or.inr ⟨hx, fun hc => (hc.elim hxa fun hm => hv hm)⟩

lemma mem_unicos [BEq α] [LawfulBEq α] {x : α} {l : List α} :
    x ∈ unicos l ↔ x ∈ l := by
  simp [unicos, mem_unicosAux]

lemma length_insereSemana (r : ResumoRow) :
    ∀ l : List ResumoRow, (insereSemana r l).length = l.length + 1
  | [] => rfl
  | x :: xs => by
    simp only [insereSemana]
    split
    · rfl
    · simp [length_insereSemana r xs]

lemma length_ordenarPorSemana :
    ∀ l : List ResumoRow, (ordenarPorSemana l).length = l.length
  | [] => rfl
  | r :: rs => by
    simp [ordenarPorSemana, length_insereSemana, length_ordenarPorSemana rs]

lemma mem_insereSemana {x r : ResumoRow} :
    ∀ {l : List ResumoRow}, x ∈ insereSemana r l ↔ x = r ∨ x ∈ l
  | [] => by simp [insereSemana]
  | y :: ys => by
    simp only [insereSemana]
    split
    · simp
    · rw [List.mem_cons, mem_insereSemana (l := ys)]
      simp only [List.mem_cons]
      tauto

lemma mem_ordenarPorSemana {x : ResumoRow} :
    ∀ {l : List ResumoRow}, x ∈ ordenarPorSemana l ↔ x ∈ l
  | [] => Iff.rfl
  | r :: rs => by
    rw [ordenarPorSemana, mem_insereSemana, mem_ordenarPorSemana (l := rs), List.mem_cons]

lemma length_dadosDe (df : List ResumoRow) (t : String) :
    (dadosDe df t).length = (df.filter (fun r => r.tecnico == t)).length := by
  rw [dadosDe, length_ordenarPorSemana]

lemma mem_dadosDe {x : ResumoRow} {df : List ResumoRow} {t : String} :
    x ∈ dadosDe df t ↔ x ∈ df ∧ x.tecnico = t := by
  rw [dadosDe, mem_ordenarPorSemana, List.mem_filter]
  simp

/-! ### C1 -/

/-- C1: the sustained-growth detector is claimed never to fail on a series of
exactly 3 observations that are all goal met. The growth tab guards with
`len(dados) >= 3` and then reads `produtividade.iloc[-4]`, so on the 3-row
all-goal-met series `exemploTresSemanas` it raises `IndexError` instead of
reporting nothing: the code contradicts the spec's "requires ≥4 points". -/
theorem crescimento_tres_linhas_indexerror :
    mostrar_padroes_crescimento exemploTresSemanas
      = .error "IndexError: single positional indexer is out-of-bounds" := rfl

/-! ### C3 -/

/-- C3: column validation fails exactly when some required source column is
absent; the raised error names exactly the set of absent required columns
(all of them, nothing else); with every required column present it returns
`True`. -/
theorem validar_colunas_spec (columns : List String) :
    ((∃ c ∈ COLUNAS_OBRIGATORIAS, c ∉ columns) ↔
        ∃ e, validar_colunas columns = .error e) ∧
    (∀ e, validar_colunas columns = .error e →
        ∀ c, c ∈ e ↔ (c ∈ COLUNAS_OBRIGATORIAS ∧ c ∉ columns)) ∧
    ((∀ c ∈ COLUNAS_OBRIGATORIAS, c ∈ columns) → validar_colunas columns = .ok true) := by
  have hmem : ∀ c, c ∈ COLUNAS_OBRIGATORIAS.filter (fun col => !columns.contains col) ↔
      (c ∈ COLUNAS_OBRIGATORIAS ∧ c ∉ columns) := by
    intro c
    simp [List.mem_filter]
  by_cases h : (COLUNAS_OBRIGATORIAS.filter (fun col => !columns.contains col)).isEmpty
  · have hnil : COLUNAS_OBRIGATORIAS.filter (fun col => !columns.contains col) = [] :=
      List.isEmpty_iff.mp h
    have hok : validar_colunas columns = .ok true := by
      simp only [validar_colunas]
      rw [if_pos h]
    refine ⟨?_, ?_, fun _ => hok⟩
    · constructor
      · rintro ⟨c, hc, hcn⟩
        refine absurd ((hmem c).mpr ⟨hc, hcn⟩) ?_
        rw [hnil]
        simp
      · rintro ⟨e, he⟩
        rw [hok] at he
        exact absurd he (by simp)
    · intro e he
      rw [hok] at he
      exact absurd he (by simp)
  · have herr : validar_colunas columns
        = .error (COLUNAS_OBRIGATORIAS.filter (fun col => !columns.contains col)) := by
      simp only [validar_colunas]
      rw [if_neg h]
    have hne : COLUNAS_OBRIGATORIAS.filter (fun col => !columns.contains col) ≠ [] := by
      simpa [List.isEmpty_iff] using h
    obtain ⟨c, hc⟩ := List.exists_mem_of_ne_nil _ hne
    refine ⟨?_, ?_, ?_⟩
    · exact ⟨fun _ => ⟨_, herr⟩,
        fun _ => ⟨c, ((hmem c).mp hc).1, ((hmem c).mp hc).2⟩⟩
    · intro e he
      rw [herr] at he
      cases he
      exact hmem
    · intro hall
      exact absurd (hall c ((hmem c).mp hc).1) ((hmem c).mp hc).2

/-- Witness for C3: the empty table is missing a column (and produces an
error), and a table carrying every required column validates. -/
theorem validar_colunas_spec_witness :
    (∃ e, validar_colunas [] = .error e) ∧
    validar_colunas COLUNAS_OBRIGATORIAS = .ok true :=
  ⟨(validar_colunas_spec []).1.mp (by decide),
   (validar_colunas_spec COLUNAS_OBRIGATORIAS).2.2 (fun _ hc => hc)⟩

/-! ### C4 -/

lemma mem_dias {s d : Int} :
    d ∈ (List.range 7).map (fun (i : Nat) => s + (i : Int)) ↔ s ≤ d ∧ d ≤ s + 6 := by
  simp only [List.mem_map, List.mem_range]
  constructor
  · rintro ⟨i, hi, rfl⟩
    omega
  · rintro ⟨h1, h2⟩
    exact ⟨(d - s).toNat, by omega, by omega⟩

lemma nodup_dias (s : Int) : ((List.range 7).map (fun (i : Nat) => s + (i : Int))).Nodup := by
  refine List.Nodup.map ?_ (List.nodup_range 7)
  intro a b hab
  dsimp only at hab
  omega

/-- The holiday count of `calcular_meta` is the claim's count: the number of
holiday dates in the inclusive window `[semana, semana+6]`. -/
lemma qtd_feriados_eq (s : Int) (f : List Int) :
    (((List.range 7).map (fun (i : Nat) => s + (i : Int))).filter
        (fun d => f.contains d)).length = feriadosNaJanela s f := by
  rw [feriadosNaJanela]
  have hnd : (((List.range 7).map (fun (i : Nat) => s + (i : Int))).filter
      (fun d => f.contains d)).Nodup := (nodup_dias s).filter _
  rw [← List.toFinset_card_of_nodup hnd]
  congr 1
  ext d
  simp only [List.mem_toFinset, List.mem_filter, mem_dias, Finset.mem_filter]
  constructor
  · rintro ⟨⟨h1, h2⟩, hf⟩
    exact ⟨by simpa using hf, h1, h2⟩
  · rintro ⟨hf, h1, h2⟩
    exact ⟨⟨h1, h2⟩, by simpa using hf⟩

/-- C4: the weekly goal equals `SEMANAL − DIARIA × (holiday dates in the
inclusive window [semana, semana+6])`; it depends only on the holiday set
(not the list's order or duplicates); adding one extra in-window holiday
lowers the goal by exactly `DIARIA`; and the result is unclamped — it can go
negative. Determinism is inherent: `calcular_meta` is a pure function of
`(semana, feriados)`. -/
theorem calcular_meta_spec (s : Int) (f g : List Int) (d : Int)
    (hfg : ∀ x : Int, x ∈ f ↔ x ∈ g) (hd : d ∉ f) (hd1 : s ≤ d) (hd2 : d ≤ s + 6) :
    calcular_meta s f
        = MetaConfig.SEMANAL - (feriadosNaJanela s f : Int) * MetaConfig.DIARIA ∧
    calcular_meta s f = calcular_meta s g ∧
    calcular_meta s (d :: f) = calcular_meta s f - MetaConfig.DIARIA ∧
    ∃ s' f', calcular_meta s' f' < 0 := by
  have hmeta : ∀ h : List Int, calcular_meta s h
      = MetaConfig.SEMANAL - (feriadosNaJanela s h : Int) * MetaConfig.DIARIA := by
    intro h
    rw [calcular_meta, qtd_feriados_eq]
  have hsets : f.toFinset = g.toFinset := by
    ext x
    simpa using hfg x
  have hins : feriadosNaJanela s (d :: f) = feriadosNaJanela s f + 1 := by
    rw [feriadosNaJanela, feriadosNaJanela, List.toFinset_cons, Finset.filter_insert,
      if_pos ⟨hd1, hd2⟩]
    rw [Finset.card_insert_of_not_mem (by simp [hd])]
  refine ⟨hmeta f, ?_, ?_, ⟨0, [0, 1, 2, 3, 4, 5, 6], by decide⟩⟩
  · rw [hmeta f, hmeta g, feriadosNaJanela, feriadosNaJanela, hsets]
  · rw [hmeta f, hmeta (d :: f), hins]
    push_cast
    ring

/-- Witness for C4: week 0 with the single in-window holiday on day 0 has a
goal exactly `DIARIA` below the holiday-free goal. -/
theorem calcular_meta_spec_witness :
    calcular_meta 0 [0] = calcular_meta 0 [] - MetaConfig.DIARIA :=
  (calcular_meta_spec 0 [] [] 0 (fun _ => Iff.rfl) (by simp) (by decide) (by decide)).2.2.1

/-! ### C5 -/

/-- C5: the trend analysis returns the `insuficiente` status exactly when the
technician has fewer than `periodo_semanas` observed weekly rows. The
`insuficiente` result carries no slope, projection or direction — the
constructor has no such fields, matching the Python dictionary that holds
only `status` and `message`. -/
theorem identificar_tendencia_insuficiente_iff (df : List ResumoRow) (t : String) (W : Nat) :
    identificar_tendencia df t W = .insuficiente ↔
      (df.filter (fun r => r.tecnico == t)).length < W := by
  rw [identificar_tendencia, ← length_dadosDe df t]
  by_cases h : (dadosDe df t).length < W
  · simp [h]
  · simp [h]

/-! ### C2 -/

/-- Dropping the `NaT` rows first does not change the valid entries: the
unparseable rows already vanish in `validEntries`. -/
lemma validEntries_filter (rows : List Row) :
    validEntries (rows.filter (fun r => r.data_fechamento.isSome)) = validEntries rows := by
  induction rows with
  | nil => rfl
  | cons r rs ih =>
    cases h : r.data_fechamento with
    | none =>
      simp only [validEntries] at ih ⊢
      simp [List.filter_cons, List.filterMap_cons, h, ih]
    | some d =>
      simp only [validEntries] at ih ⊢
      simp [List.filter_cons, List.filterMap_cons, h, ih]

/-- C2 counterexample: no dropped-row count is exposed to the caller. The
summary returned for a table with one unparseable-date row is byte-for-byte
the summary returned for the same table without it, although the dropped-row
counts of the two inputs differ (1 versus 0) — so the caller cannot recover
any drop count from what `preprocessar_dados` returns. -/
theorem preprocessar_nao_expoe_descartes :
    (DataProcessor.preprocessar_dados { df_principal := some [linhaBoa, linhaMa] } []).map
        Prod.fst
      = (DataProcessor.preprocessar_dados { df_principal := some [linhaBoa] } []).map
        Prod.fst ∧
    linhasDescartadas [linhaBoa, linhaMa] = 1 ∧ linhasDescartadas [linhaBoa] = 0 := by
  exact ⟨rfl, by decide, by decide⟩

/-- C2 (amended): rows with an unparseable closing date are dropped
non-fatally — the summary equals the one computed from the parseable rows
alone, and preprocessing on a loaded table always succeeds. (The claimed
dropped-row count is not exposed; see the counterexample.) -/
theorem preprocessar_descarta_nao_fatal (rows : List Row) (feriados : List Int) :
    preprocessar_core rows feriados
        = preprocessar_core (rows.filter (fun r => r.data_fechamento.isSome)) feriados ∧
    DataProcessor.preprocessar_dados { df_principal := some rows } feriados
        = .ok (preprocessar_core rows feriados, { df_principal := some rows }) := by
  constructor
  · rw [preprocessar_core, preprocessar_core, validEntries_filter]
  · rfl

/-! ### C8 -/

lemma append_singleton_inj {α : Type} {as bs : List α} {a b : α}
    (h : as ++ [a] = bs ++ [b]) : as = bs ∧ a = b := by
  have h2 := congrArg List.reverse h
  simp only [List.reverse_append, List.reverse_cons, List.reverse_nil,
    List.nil_append, List.cons_append, List.cons.injEq] at h2
  exact ⟨List.reverse_injective h2.2, h2.1⟩

lemma sufixo_um {b : Bool} {n : Nat} {l : List Bool} (h : List.replicate n b <:+ l) :
    List.replicate (n + 1) b <:+ l ++ [b] := by
  obtain ⟨t, ht⟩ := h
  refine ⟨t, ?_⟩
  rw [List.replicate_succ', ← List.append_assoc, ht]

lemma sufixo_down {b x : Bool} {n : Nat} {l : List Bool}
    (h : List.replicate (n + 1) b <:+ l ++ [x]) : b = x ∧ List.replicate n b <:+ l := by
  obtain ⟨t, ht⟩ := h
  rw [List.replicate_succ', ← List.append_assoc] at ht
  obtain ⟨h1, h2⟩ := append_singleton_inj ht
  exact ⟨h2, ⟨t, h1⟩⟩

lemma sufixo_infixo {α : Type} {l₁ l₂ : List α} (h : l₁ <:+ l₂) : l₁ <:+: l₂ := by
  obtain ⟨t, ht⟩ := h
  exact ⟨t, [], by rw [List.append_nil]; exact ht⟩

lemma infixo_append {α : Type} {l₁ l₂ : List α} (h : l₁ <:+: l₂) (x : α) :
    l₁ <:+: l₂ ++ [x] := by
  obtain ⟨s, t, hst⟩ := h
  exact ⟨s, t ++ [x], by rw [← List.append_assoc, hst]⟩

lemma infixo_nil {α : Type} {l : List α} (h : l <:+: ([] : List α)) : l = [] := by
  obtain ⟨s, t, hst⟩ := h
  have h1 := List.append_eq_nil.mp hst
  exact (List.append_eq_nil.mp h1.1).2

lemma infixo_split {α : Type} {l₁ l₂ : List α} {x : α} (h : l₁ <:+: l₂ ++ [x]) :
    l₁ <:+: l₂ ∨ l₁ <:+ l₂ ++ [x] := by
  obtain ⟨s, t, hst⟩ := h
  rcases t.eq_nil_or_concat with rfl | ⟨t', y, rfl⟩
  · right
    exact ⟨s, by simpa using hst⟩
  · left
    rw [List.concat_eq_append, ← List.append_assoc] at hst
    obtain ⟨h1, -⟩ := append_singleton_inj hst
    exact ⟨s, t', h1⟩

/-- Invariant of the streak walk: after processing `l`, `current_pos` /
`current_neg` are the exact lengths of the maximal true / false suffix of
`l`, and the two maxima are the exact lengths of the longest constant true /
false runs (replicate-infixes) of `l`. -/
lemma streaks_invariante (l : List Bool) :
    (List.replicate (calcular_streaks l).current_pos true <:+ l) ∧
    (∀ n, List.replicate n true <:+ l → n ≤ (calcular_streaks l).current_pos) ∧
    (List.replicate (calcular_streaks l).current_neg false <:+ l) ∧
    (∀ n, List.replicate n false <:+ l → n ≤ (calcular_streaks l).current_neg) ∧
    (List.replicate (calcular_streaks l).maior_streak_positivo true <:+: l) ∧
    (∀ n, List.replicate n true <:+: l → n ≤ (calcular_streaks l).maior_streak_positivo) ∧
    (List.replicate (calcular_streaks l).maior_streak_negativo false <:+: l) ∧
    (∀ n, List.replicate n false <:+: l → n ≤ (calcular_streaks l).maior_streak_negativo) := by
  induction l using List.reverseRecOn with
  | nil =>
    refine ⟨⟨[], rfl⟩, ?_, ⟨[], rfl⟩, ?_, ⟨[], [], rfl⟩, ?_, ⟨[], [], rfl⟩, ?_⟩
    · intro n hn
      have h : n = 0 := by simpa using List.suffix_nil.mp hn
      exact h ▸ Nat.zero_le _
    · intro n hn
      have h : n = 0 := by simpa using List.suffix_nil.mp hn
      exact h ▸ Nat.zero_le _
    · intro n hn
      have h : n = 0 := by simpa using infixo_nil hn
      exact h ▸ Nat.zero_le _
    · intro n hn
      have h : n = 0 := by simpa using infixo_nil hn
      exact h ▸ Nat.zero_le _
  | append_singleton l b ih =>
    have hfold : calcular_streaks (l ++ [b]) = streakPasso (calcular_streaks l) b := by
      rw [calcular_streaks, calcular_streaks, List.foldl_append]
      rfl
    obtain ⟨ih1, ih2, ih3, ih4, ih5, ih6, ih7, ih8⟩ := ih
    cases b with
    | true =>
      rw [hfold]
      simp only [streakPasso, if_true]
      refine ⟨sufixo_um ih1, ?_, by simp, ?_, ?_, ?_, infixo_append ih7 true, ?_⟩
      · intro n hn
        cases n with
        | zero => omega
        | succ m => exact Nat.succ_le_succ (ih2 m (sufixo_down hn).2)
      · intro n hn
        cases n with
        | zero => omega
        | succ m => exact absurd (sufixo_down hn).1 (by simp)
      · by_cases hmx : (calcular_streaks l).maior_streak_positivo ≤
            (calcular_streaks l).current_pos + 1
        · rw [Nat.max_eq_right hmx]
          exact sufixo_infixo (sufixo_um ih1)
        · rw [Nat.max_eq_left (Nat.le_of_not_le hmx)]
          exact infixo_append ih5 true
      · intro n hn
        rcases infixo_split hn with h | h
        · exact (ih6 n h).trans (Nat.le_max_left _ _)
        · refine le_trans ?_ (Nat.le_max_right _ _)
          cases n with
          | zero => omega
          | succ m => exact Nat.succ_le_succ (ih2 m (sufixo_down h).2)
      · intro n hn
        rcases infixo_split hn with h | h
        · exact ih8 n h
        · cases n with
          | zero => omega
          | succ m => exact absurd (sufixo_down h).1 (by simp)
    | false =>
      rw [hfold]
      simp only [streakPasso, Bool.false_eq_true, if_false]
      refine ⟨by simp, ?_, sufixo_um ih3, ?_, infixo_append ih5 false, ?_, ?_, ?_⟩
      · intro n hn
        cases n with
        | zero => omega
        | succ m => exact absurd (sufixo_down hn).1 (by simp)
      · intro n hn
        cases n with
        | zero => omega
        | succ m => exact Nat.succ_le_succ (ih4 m (sufixo_down hn).2)
      · intro n hn
        rcases infixo_split hn with h | h
        · exact ih6 n h
        · cases n with
          | zero => omega
          | succ m => exact absurd (sufixo_down h).1 (by simp)
      · by_cases hmx : (calcular_streaks l).maior_streak_negativo ≤
            (calcular_streaks l).current_neg + 1
        · rw [Nat.max_eq_right hmx]
          exact sufixo_infixo (sufixo_um ih3)
        · rw [Nat.max_eq_left (Nat.le_of_not_le hmx)]
          exact infixo_append ih7 false
      · intro n hn
        rcases infixo_split hn with h | h
        · exact (ih8 n h).trans (Nat.le_max_left _ _)
        · refine le_trans ?_ (Nat.le_max_right _ _)
          cases n with
          | zero => omega
          | succ m => exact Nat.succ_le_succ (ih4 m (sufixo_down h).2)

/-- C8: the streak walk returns, in `maior_streak_positivo` /
`maior_streak_negativo`, exactly the length of the longest consecutive
goal-met run and of the longest consecutive goal-missed run of the ordered
`goal_met` sequence (a run of length `n` is a `replicate n` infix); and on
the sequence `[T,T,F,T,T,T]` it returns longest positive streak 3 and
longest negative streak 1. -/
theorem calcular_streaks_spec (metas : List Bool) :
    (List.replicate (calcular_streaks metas).maior_streak_positivo true <:+: metas ∧
      ∀ n, List.replicate n true <:+: metas →
        n ≤ (calcular_streaks metas).maior_streak_positivo) ∧
    (List.replicate (calcular_streaks metas).maior_streak_negativo false <:+: metas ∧
      ∀ n, List.replicate n false <:+: metas →
        n ≤ (calcular_streaks metas).maior_streak_negativo) ∧
    ((calcular_streaks [true, true, false, true, true, true]).maior_streak_positivo = 3 ∧
      (calcular_streaks [true, true, false, true, true, true]).maior_streak_negativo = 1) := by
  obtain ⟨-, -, -, -, h5, h6, h7, h8⟩ := streaks_invariante metas
  exact ⟨⟨h5, h6⟩, ⟨h7, h8⟩, by decide, by decide⟩

/-- Witness for C8: the maximality clause applied at the concrete run
`[T,T]` inside `[T,T,F]`, plus the concrete example from the claim. -/
theorem calcular_streaks_spec_witness :
    2 ≤ (calcular_streaks [true, true, false]).maior_streak_positivo ∧
    (calcular_streaks [true, true, false, true, true, true]).maior_streak_positivo = 3 :=
  ⟨(calcular_streaks_spec [true, true, false]).1.2 2 ⟨[], [false], rfl⟩,
   (calcular_streaks_spec [true, true, false, true, true, true]).2.2.1⟩

/-! ### C9 -/

/-- Every row of the summary originates in a group key, and every group key
week is the computed `semana` of some parseable input row. -/
lemma resumo_semana_origem {s : ResumoRow} {rows : List Row} {feriados : List Int}
    (hs : s ∈ preprocessar_core rows feriados) :
    ∃ r ∈ rows, ∃ d : Int, r.data_fechamento = some d ∧ s.semana = semanaDe d := by
  rw [preprocessar_core, resumoDe] at hs
  simp only [List.mem_map] at hs
  obtain ⟨k, hk, hrec⟩ := hs
  rw [mem_unicos] at hk
  simp only [List.mem_map] at hk
  obtain ⟨e, he, hek⟩ := hk
  rw [validEntries] at he
  simp only [List.mem_filterMap] at he
  obtain ⟨r, hr, hre⟩ := he
  cases hd : r.data_fechamento with
  | none => rw [hd] at hre; cases hre
  | some d =>
    rw [hd] at hre
    refine ⟨r, hr, d, hd, ?_⟩
    have hsem : s.semana = k.2 := by rw [← hrec]
    cases hre
    rw [hsem, ← hek]

/-- C9: the computed week of a parseable closing date subtracts exactly the
ISO weekday offset (Monday = 0); consequently every `semana` value appearing
in the produced weekly summary is a Monday (`% 7 = 0`) lying on or before the
closing date of some input row that produced it. -/
theorem resumo_semana_segunda (rows : List Row) (feriados : List Int) :
    (∀ r ∈ rows, ∀ d : Int, r.data_fechamento = some d → semanaDe d = d - d % 7) ∧
    ∀ s ∈ preprocessar_core rows feriados,
      s.semana % 7 = 0 ∧
      ∃ r ∈ rows, ∃ d : Int, r.data_fechamento = some d ∧
        s.semana = d - d % 7 ∧ s.semana ≤ d := by
  refine ⟨fun _ _ _ _ => rfl, fun s hs => ?_⟩
  obtain ⟨r, hr, d, hd, hsem⟩ := resumo_semana_origem hs
  rw [semanaDe] at hsem
  constructor
  · rw [hsem]; omega
  · exact ⟨r, hr, d, hd, hsem, by omega⟩

/-- Witness for C9: the single row closing on day 9 (a Wednesday) lands in
the summary with week 7, a Monday at most 9. -/
theorem resumo_semana_segunda_witness :
    ({ tecnico := "a", semana := 7, produtividade := 5, protocolos := 1,
       meta_semana := some 40, meta_batida := false } : ResumoRow).semana % 7 = 0 ∧
    ∃ r ∈ [linhaBoa], ∃ d : Int, r.data_fechamento = some d ∧
      ({ tecnico := "a", semana := 7, produtividade := 5, protocolos := 1,
         meta_semana := some 40, meta_batida := false } : ResumoRow).semana = d - d % 7 ∧
      ({ tecnico := "a", semana := 7, produtividade := 5, protocolos := 1,
         meta_semana := some 40, meta_batida := false } : ResumoRow).semana ≤ d := by
  have hval : preprocessar_core [linhaBoa] []
      = [{ tecnico := "a", semana := 7, produtividade := 5, protocolos := 1,
           meta_semana := some 40, meta_batida := false }] := by
    simp [preprocessar_core, resumoDe, validEntries, unicos, unicosAux, linhaBoa, semanaDe,
      calcular_meta, MetaConfig.SEMANAL, MetaConfig.DIARIA]
    norm_num
  exact (resumo_semana_segunda [linhaBoa] []).2 _ (by rw [hval]; exact List.mem_singleton_self _)

/-! ### C6 -/

lemma somaIdx_closed (n : Nat) : somaIdx n = (n : ℚ) * ((n : ℚ) - 1) / 2 := by
  induction n with
  | zero => simp [somaIdx]
  | succ m ih =>
    simp only [somaIdx] at ih ⊢
    rw [List.range_succ, List.map_append, List.sum_append, ih]
    simp only [List.map_cons, List.map_nil, List.sum_cons, List.sum_nil]
    push_cast
    ring

lemma somaIdxSq_closed (n : Nat) :
    somaIdxSq n = (n : ℚ) * ((n : ℚ) - 1) * (2 * (n : ℚ) - 1) / 6 := by
  induction n with
  | zero => simp [somaIdxSq]
  | succ m ih =>
    simp only [somaIdxSq] at ih ⊢
    rw [List.range_succ, List.map_append, List.sum_append, ih]
    simp only [List.map_cons, List.map_nil, List.sum_cons, List.sum_nil]
    push_cast
    ring

/-- The determinant of the degree-1 normal equations is positive whenever at
least two points are fitted. -/
lemma den_pos {n : Nat} (hn : 2 ≤ n) :
    0 < (n : ℚ) * somaIdxSq n - somaIdx n * somaIdx n := by
  rw [somaIdx_closed, somaIdxSq_closed]
  have h2 : (2 : ℚ) ≤ (n : ℚ) := by exact_mod_cast hn
  have key : (n : ℚ) * ((n : ℚ) * ((n : ℚ) - 1) * (2 * (n : ℚ) - 1) / 6)
      - (n : ℚ) * ((n : ℚ) - 1) / 2 * ((n : ℚ) * ((n : ℚ) - 1) / 2)
      = (n : ℚ) ^ 2 * (((n : ℚ) - 1) * (((n : ℚ) + 1) / 12)) := by
    ring
  rw [key]
  have h0 : (0 : ℚ) < (n : ℚ) ^ 2 := by positivity
  have h1 : (0 : ℚ) < (n : ℚ) - 1 := by linarith
  have h3 : (0 : ℚ) < ((n : ℚ) + 1) / 12 := by
    apply div_pos <;> linarith
  exact mul_pos h0 (mul_pos h1 h3)

/-- `np.polyfit`'s closed-form output solves the least-squares normal
equations (it is the OLS fit) as soon as the window holds ≥ 2 points. -/
lemma polyfit1_lsq {ys : List ℚ} (h2 : 2 ≤ ys.length) :
    lsqFit ys (polyfit1 ys).1 (polyfit1 ys).2 := by
  have hne : (ys.length : ℚ) * somaIdxSq ys.length - somaIdx ys.length * somaIdx ys.length
      ≠ 0 := ne_of_gt (den_pos h2)
  simp only [polyfit1, lsqFit]
  constructor
  · field_simp
    ring
  · field_simp
    ring

/-- With ≥ 2 points the normal equations have a unique solution. -/
lemma lsqFit_unique {ys : List ℚ} (h2 : 2 ≤ ys.length) {a b a' b' : ℚ}
    (h : lsqFit ys a b) (h' : lsqFit ys a' b') : a = a' ∧ b = b' := by
  obtain ⟨h1, hB⟩ := h
  obtain ⟨h1', hB'⟩ := h'
  have hden := den_pos h2
  have hNpos : (0 : ℚ) < (ys.length : ℚ) := by
    have : (2 : ℚ) ≤ (ys.length : ℚ) := by exact_mod_cast h2
    linarith
  have ha : (a - a') * ((ys.length : ℚ) * somaIdxSq ys.length
      - somaIdx ys.length * somaIdx ys.length) = 0 := by
    linear_combination (ys.length : ℚ) * h1 - somaIdx ys.length * hB
      - (ys.length : ℚ) * h1' + somaIdx ys.length * hB'
  have haa : a = a' := by
    rcases mul_eq_zero.mp ha with h | h
    · exact sub_eq_zero.mp h
    · exact absurd h (ne_of_gt hden)
  refine ⟨haa, ?_⟩
  have hb : (b - b') * (ys.length : ℚ) = 0 := by
    rw [haa] at hB
    linear_combination hB - hB'
  rcases mul_eq_zero.mp hb with h | h
  · exact sub_eq_zero.mp h
  · exact absurd h (ne_of_gt hNpos)

lemma sse_decomp (a b a' b' : ℚ) :
    ∀ P : List (Nat × ℚ),
      (P.map (fun p => (p.2 - (a' * (p.1 : ℚ) + b')) ^ 2)).sum
        = (P.map (fun p => (p.2 - (a * (p.1 : ℚ) + b)) ^ 2)).sum
          + 2 * (a - a') * (P.map (fun p => (p.1 : ℚ) * (p.2 - (a * (p.1 : ℚ) + b)))).sum
          + 2 * (b - b') * (P.map (fun p => p.2 - (a * (p.1 : ℚ) + b))).sum
          + (P.map (fun p => ((a - a') * (p.1 : ℚ) + (b - b')) ^ 2)).sum
  | [] => by simp
  | p :: P => by
    simp only [List.map_cons, List.sum_cons, sse_decomp a b a' b' P]
    ring

lemma xr_sum (a b : ℚ) :
    ∀ P : List (Nat × ℚ),
      (P.map (fun p => (p.1 : ℚ) * (p.2 - (a * (p.1 : ℚ) + b)))).sum
        = (P.map (fun p => (p.1 : ℚ) * p.2)).sum
          - a * (P.map (fun p => (p.1 : ℚ) * (p.1 : ℚ))).sum
          - b * (P.map (fun p => (p.1 : ℚ))).sum
  | [] => by simp
  | p :: P => by
    simp only [List.map_cons, List.sum_cons, xr_sum a b P]
    ring

lemma r_sum (a b : ℚ) :
    ∀ P : List (Nat × ℚ),
      (P.map (fun p => p.2 - (a * (p.1 : ℚ) + b))).sum
        = (P.map (fun p => p.2)).sum
          - a * (P.map (fun p => (p.1 : ℚ))).sum - b * (P.length : ℚ)
  | [] => by simp
  | p :: P => by
    simp only [List.map_cons, List.sum_cons, List.length_cons, r_sum a b P]
    push_cast
    ring

lemma zip_x_sum (ys : List ℚ) :
    (((List.range ys.length).zip ys).map (fun p => (p.1 : ℚ))).sum = somaIdx ys.length := by
  rw [somaIdx,
    show (fun p : Nat × ℚ => ((p.1 : ℚ))) = ((fun (i : Nat) => (i : ℚ)) ∘ Prod.fst) from rfl,
    ← List.map_map, List.map_fst_zip _ _ (le_of_eq (List.length_range _))]

lemma zip_xx_sum (ys : List ℚ) :
    (((List.range ys.length).zip ys).map (fun p => (p.1 : ℚ) * (p.1 : ℚ))).sum
      = somaIdxSq ys.length := by
  rw [somaIdxSq,
    show (fun p : Nat × ℚ => ((p.1 : ℚ) * (p.1 : ℚ)))
      = ((fun (i : Nat) => (i : ℚ) * (i : ℚ)) ∘ Prod.fst) from rfl,
    ← List.map_map, List.map_fst_zip _ _ (le_of_eq (List.length_range _))]

lemma zip_y_sum (ys : List ℚ) :
    (((List.range ys.length).zip ys).map (fun p => p.2)).sum = ys.sum := by
  rw [show (fun p : Nat × ℚ => p.2) = (Prod.snd : Nat × ℚ → ℚ) from rfl,
    List.map_snd_zip _ _ (le_of_eq (List.length_range _).symm)]

lemma zip_len (ys : List ℚ) : ((List.range ys.length).zip ys).length = ys.length := by
  rw [List.length_zip, List.length_range, Nat.min_self]

/-- A solution of the normal equations minimises the sum of squared
residuals over all candidate lines: `lsqFit` really is the
ordinary-least-squares fit. -/
lemma lsqFit_minimiza {ys : List ℚ} {a b : ℚ} (h : lsqFit ys a b) (a' b' : ℚ) :
    erroQuadratico ys a b ≤ erroQuadratico ys a' b' := by
  obtain ⟨h1, h2⟩ := h
  rw [erroQuadratico, erroQuadratico, sse_decomp a b a' b', xr_sum, r_sum, zip_x_sum,
    zip_xx_sum, zip_y_sum, zip_len]
  have hxy : (((List.range ys.length).zip ys).map (fun p => (p.1 : ℚ) * p.2)).sum
      = somaXY ys := rfl
  rw [hxy]
  have e1 : somaXY ys - a * somaIdxSq ys.length - b * somaIdx ys.length = 0 := by linarith
  have e2 : ys.sum - a * somaIdx ys.length - b * (ys.length : ℚ) = 0 := by linarith
  rw [e1, e2]
  have hnn : 0 ≤ (((List.range ys.length).zip ys).map
      (fun p => ((a - a') * (p.1 : ℚ) + (b - b')) ^ 2)).sum := by
    refine List.sum_nonneg ?_
    intro x hx
    obtain ⟨p, -, rfl⟩ := List.mem_map.mp hx
    positivity
  linarith

/-- C6: with at least `W ≥ 2` observed weeks the trend analysis returns the
`ok` dictionary whose `coeficiente`/`intercepto` pair is the unique solution
of the least-squares normal equations over the last `W` productivity values
indexed `0..W-1`; its direction label applies the `±0.5` slope thresholds;
its projection evaluates the fitted line at `x = W`; and its projection date
is the last observed week plus 7 days. -/
theorem identificar_tendencia_ok_spec (df : List ResumoRow) (t : String) (W : Nat)
    (hW : 2 ≤ W) (hlen : W ≤ (df.filter (fun r => r.tecnico == t)).length) :
    ∃ res, identificar_tendencia df t W = TrendResult.ok res ∧
      lsqFit (ultimosProdutos df t W) res.coeficiente res.intercepto ∧
      (∀ a b, lsqFit (ultimosProdutos df t W) a b →
        a = res.coeficiente ∧ b = res.intercepto) ∧
      (∀ a b, erroQuadratico (ultimosProdutos df t W) res.coeficiente res.intercepto
        ≤ erroQuadratico (ultimosProdutos df t W) a b) ∧
      res.tendencia = (if (1 : ℚ)/2 < res.coeficiente then "alta"
        else if res.coeficiente < -(1/2 : ℚ) then "baixa" else "estavel") ∧
      res.projecao = res.coeficiente * (W : ℚ) + res.intercepto ∧
      res.projecao_date = (dadosDe df t).getLast?.map (fun r => r.semana + 7) := by
  have hdlen : (dadosDe df t).length = (df.filter (fun r => r.tecnico == t)).length :=
    length_dadosDe df t
  have hnot : ¬ (dadosDe df t).length < W := by omega
  have hys : (ultimosProdutos df t W).length = W := by
    rw [ultimosProdutos, List.length_map, List.length_drop]
    omega
  have h2 : 2 ≤ (ultimosProdutos df t W).length := by omega
  refine ⟨{ tecnico := t
            tendencia := if (1 : ℚ)/2 < (polyfit1 (ultimosProdutos df t W)).1 then "alta"
              else if (polyfit1 (ultimosProdutos df t W)).1 < -(1/2 : ℚ) then "baixa"
              else "estavel"
            coeficiente := (polyfit1 (ultimosProdutos df t W)).1
            intercepto := (polyfit1 (ultimosProdutos df t W)).2
            projecao := (polyfit1 (ultimosProdutos df t W)).1 * (W : ℚ)
              + (polyfit1 (ultimosProdutos df t W)).2
            projecao_date := (dadosDe df t).getLast?.map (fun r => r.semana + 7) },
    ?_, polyfit1_lsq h2, fun a b hab => lsqFit_unique h2 hab (polyfit1_lsq h2),
    fun a b => lsqFit_minimiza (polyfit1_lsq h2) a b, rfl, rfl, rfl⟩
  simp only [identificar_tendencia]
  rw [if_neg hnot]
  rfl

/-- Witness for C6: the trend over the concrete 4-week series with
productivity 10, 20, 30, 40. -/
theorem identificar_tendencia_ok_spec_witness :
    ∃ res, identificar_tendencia exemploTendencia "a" 4 = TrendResult.ok res ∧
      lsqFit (ultimosProdutos exemploTendencia "a" 4) res.coeficiente res.intercepto ∧
      (∀ a b, lsqFit (ultimosProdutos exemploTendencia "a" 4) a b →
        a = res.coeficiente ∧ b = res.intercepto) ∧
      (∀ a b, erroQuadratico (ultimosProdutos exemploTendencia "a" 4) res.coeficiente
          res.intercepto
        ≤ erroQuadratico (ultimosProdutos exemploTendencia "a" 4) a b) ∧
      res.tendencia = (if (1 : ℚ)/2 < res.coeficiente then "alta"
        else if res.coeficiente < -(1/2 : ℚ) then "baixa" else "estavel") ∧
      res.projecao = res.coeficiente * ((4 : Nat) : ℚ) + res.intercepto ∧
      res.projecao_date = (dadosDe exemploTendencia "a").getLast?.map
        (fun r => r.semana + 7) :=
  identificar_tendencia_ok_spec exemploTendencia "a" 4 (by decide) (by decide)

/-! ### C7 -/

/-- An emitted decline alert belongs to the scanned technician, and forces
the `met, missed, missed` shape on the last three weeks. -/
lemma alertaQuedaDe_some {df : List ResumoRow} {t : String} {a : Alert}
    (h : alertaQuedaDe df t = some a) :
    a.tecnico = t ∧ 3 ≤ (dadosDe df t).length ∧
    ((dadosDe df t).drop ((dadosDe df t).length - 3)).map (fun r => r.meta_batida)
      = [true, false, false] := by
  by_cases h3 : 3 ≤ (dadosDe df t).length
  case neg =>
    rw [alertaQuedaDe] at h
    rw [if_neg h3] at h
    cases h
  case pos =>
    rw [alertaQuedaDe, if_pos h3] at h
    have hl3 : ((dadosDe df t).drop ((dadosDe df t).length - 3)).length = 3 := by
      rw [List.length_drop]
      omega
    obtain ⟨x, y, z, hxyz⟩ := List.length_eq_three.mp hl3
    rw [hxyz] at h
    by_cases hc : (x.meta_batida && !y.meta_batida && !z.meta_batida) = true
    · simp only [hc, if_true] at h
      cases h
      obtain ⟨⟨hx, hy⟩, hz⟩ : (x.meta_batida = true ∧ y.meta_batida = false) ∧
          z.meta_batida = false := by
        simpa using hc
      refine ⟨rfl, h3, ?_⟩
      rw [hxyz]
      simp [hx, hy, hz]
    · rw [Bool.not_eq_true] at hc
      simp only [hc, Bool.false_eq_true, if_false] at h
      cases h

/-- Conversely, the `met, missed, missed` shape on a technician with at least
3 weeks makes the scan emit exactly the decline alert. -/
lemma alertaQuedaDe_eq_some {df : List ResumoRow} {t : String}
    (h3 : 3 ≤ (dadosDe df t).length)
    (hm : ((dadosDe df t).drop ((dadosDe df t).length - 3)).map (fun r => r.meta_batida)
      = [true, false, false]) :
    alertaQuedaDe df t = some { tipo := "queda_performance"
                                tecnico := t
                                severidade := "alta"
                                message := t ++ " teve queda nas últimas 3 semanas" } := by
  rw [alertaQuedaDe, if_pos h3]
  have hl3 : ((dadosDe df t).drop ((dadosDe df t).length - 3)).length = 3 := by
    rw [List.length_drop]
    omega
  obtain ⟨x, y, z, hxyz⟩ := List.length_eq_three.mp hl3
  rw [hxyz] at hm ⊢
  obtain ⟨hx, hy, hz⟩ : x.meta_batida = true ∧ y.meta_batida = false ∧
      z.meta_batida = false := by
    simpa using hm
  simp [hx, hy, hz]

/-- C7: with at least 3 observed weeks, a high-severity `queda_performance`
alert is emitted for a technician exactly when the sorted series reads goal
met at position −3 and missed at −2 and −1; in particular a technician whose
series never meets the goal yields no decline alert. -/
theorem gerar_alertas_queda_iff (df : List ResumoRow) (t : String)
    (h3 : 3 ≤ (dadosDe df t).length) :
    ((∃ a ∈ gerar_alertas df, a.tecnico = t ∧ a.tipo = "queda_performance" ∧
        a.severidade = "alta") ↔
      ((dadosDe df t).drop ((dadosDe df t).length - 3)).map (fun r => r.meta_batida)
        = [true, false, false]) ∧
    ((∀ r ∈ dadosDe df t, r.meta_batida = false) →
      ¬ ∃ a ∈ gerar_alertas df, a.tecnico = t ∧ a.tipo = "queda_performance") := by
  have htec : t ∈ unicos (df.map (fun r => r.tecnico)) := by
    have hpos : 0 < (dadosDe df t).length := by omega
    obtain ⟨r, hr⟩ := List.exists_mem_of_length_pos hpos
    have hrm := mem_dadosDe.mp hr
    rw [mem_unicos, List.mem_map]
    exact ⟨r, hrm.1, hrm.2⟩
  have hfwd : (∃ a ∈ gerar_alertas df, a.tecnico = t) →
      ((dadosDe df t).drop ((dadosDe df t).length - 3)).map (fun r => r.meta_batida)
        = [true, false, false] := by
    rintro ⟨a, ha, hat⟩
    rw [gerar_alertas, List.mem_filterMap] at ha
    obtain ⟨t', ht', hsome⟩ := ha
    obtain ⟨htec', -, hmap⟩ := alertaQuedaDe_some hsome
    have : t' = t := htec' ▸ hat
    exact this ▸ hmap
  refine ⟨⟨fun hex => ?_, fun hm => ?_⟩, fun hall hex => ?_⟩
  · obtain ⟨a, ha, h1, -, -⟩ := hex
    exact hfwd ⟨a, ha, h1⟩
  · refine ⟨{ tipo := "queda_performance"
              tecnico := t
              severidade := "alta"
              message := t ++ " teve queda nas últimas 3 semanas" }, ?_, rfl, rfl, rfl⟩
    rw [gerar_alertas, List.mem_filterMap]
    exact ⟨t, htec, alertaQuedaDe_eq_some h3 hm⟩
  · obtain ⟨a, ha, h1, -⟩ := hex
    have hm := hfwd ⟨a, ha, h1⟩
    have hl3 : ((dadosDe df t).drop ((dadosDe df t).length - 3)).length = 3 := by
      rw [List.length_drop]
      omega
    obtain ⟨x, y, z, hxyz⟩ := List.length_eq_three.mp hl3
    rw [hxyz] at hm
    simp only [List.map_cons, List.map_nil, List.cons.injEq, and_true] at hm
    have hx : x.meta_batida = true := hm.1
    have hxmem : x ∈ dadosDe df t :=
      List.mem_of_mem_drop (hxyz ▸ List.mem_cons_self x [y, z])
    rw [hall x hxmem] at hx
    cases hx

/-- Witness for C7: the concrete technician whose last three weeks read met,
missed, missed receives the high-severity decline alert. -/
theorem gerar_alertas_queda_iff_witness :
    ∃ a ∈ gerar_alertas exemploQueda, a.tecnico = "a" ∧ a.tipo = "queda_performance" ∧
      a.severidade = "alta" :=
  (gerar_alertas_queda_iff exemploQueda "a" (by decide)).1.mpr (by decide)

/-! ### C10 -/

/-- C10: `preprocessar_dados` computes the weekly summary on a copy of the
stored raw table, so a successful call returns the processor state unchanged:
`df_principal` afterwards is exactly the loaded table. -/
theorem preprocessar_preserva_estado (p : DataProcessor) (feriados : List Int)
    (rows : List Row) (h : p.df_principal = some rows) :
    p.preprocessar_dados feriados = .ok (preprocessar_core rows feriados, p) := by
  cases p with
  | mk df =>
    cases df with
    | none => cases h
    | some table =>
      cases h
      rfl

/-- Witness for C10: on a concrete loaded processor the call succeeds and
returns the identical state. -/
theorem preprocessar_preserva_estado_witness :
    DataProcessor.preprocessar_dados { df_principal := some [linhaBoa] } []
      = .ok (preprocessar_core [linhaBoa] [], { df_principal := some [linhaBoa] }) :=
  preprocessar_preserva_estado { df_principal := some [linhaBoa] } [] [linhaBoa] rfl

end Dashboard
